import Mathlib

/-
Verification of the Dinnercaster widget (src/dinnercaster/dinnercaster.jsx and
its variants).  The definitions below are a shallow embedding of the widget's
state-reconciliation core: meal records, the `uid` generator, `formatDate`,
`buildInitialData`, the `useWidgetState` initializer, the toolOutput sync
effect (both the main variant and the read-only variant that tracks the
last-synced payload in a ref), and the three local mutations `addMeal`,
`deleteMealById`, `updateMealById`.
-/

namespace Dinnercaster

/-- A fully-defaulted meal record, as produced by `addMealDefaults`:
`{ id, date, meal, notes }` where `date` is a string or `null` and the other
fields are strings. -/
structure Meal where
  id : String
  date : Option String
  meal : String
  notes : String
deriving DecidableEq, Repr

/-- The view model held in widget state: `{ meals: [...] }`. -/
structure ViewModel where
  meals : List Meal
deriving DecidableEq, Repr

/-- A raw meal record as it may arrive in a server payload: any of the four
fields may be nullish (absent / null / undefined), modelled as `none`.
A `date` that is not a string is also modelled as `none`, matching the
source's typeof-string test which collapses non-strings to null. -/
structure RawMeal where
  id : Option String
  date : Option String
  meal : Option String
  notes : Option String
deriving DecidableEq, Repr

/-- The `toolOutput` global: an object whose `meals` field may be nullish
(`none`) or an array of raw records.  A wholly absent `toolOutput` is
`Option ToolOutput = none` at use sites. -/
structure ToolOutput where
  meals : Option (List RawMeal)
deriving DecidableEq, Repr

/-- The `widgetState` global: cached client state whose `meals` field may be
nullish or an array of (already defaulted) records. -/
structure WidgetState where
  meals : Option (List Meal)
deriving DecidableEq, Repr

/- ------------------------------- uid ---------------------------------- -/

/-- Base-36 digit character, as used by Number.prototype.toString(36). -/
def digitChar36 (d : Nat) : Char :=
  if d < 10 then Char.ofNat (48 + d) else Char.ofNat (87 + d)

/-- Base-36 digits of a natural number, most significant first:
`Date.now().toString(36)`. -/
def toDigits36 (n : Nat) : List Char :=
  if _h : n < 36 then [digitChar36 n]
  else toDigits36 (n / 36) ++ [digitChar36 (n % 36)]
  decreasing_by exact Nat.div_lt_self (by omega) (by omega)

/-- `toString(36)` on a natural number. -/
def toString36 (n : Nat) : String := String.mk (toDigits36 n)

/-- Model of `String.prototype.toUpperCase()`. -/
def jsToUpper (s : String) : String := String.mk (s.data.map Char.toUpper)

/-- The environment a single `uid()` call observes: whether
`crypto.randomUUID` is available, the UUID it would return, `Date.now()`,
and `Math.random().toString(36).slice(2, 10)` (the random suffix). -/
structure UidEnv where
  hasCrypto : Bool
  randomUUID : String
  nowMs : Nat
  randSuffix : String
deriving DecidableEq, Repr

/-- `uid()` from dinnercaster.jsx: `crypto.randomUUID()` when available,
otherwise `(Date.now().toString(36) + Math.random().toString(36).slice(2, 10)).toUpperCase()`. -/
def uid (env : UidEnv) : String :=
  if env.hasCrypto then env.randomUUID
  else jsToUpper (toString36 env.nowMs ++ env.randSuffix)

/- ---------------------------- formatDate ------------------------------- -/

/-- Leading decimal digits of a character list; `none` models NaN
(no digits at all). -/
def parseDigits10 (cs : List Char) : Option Nat :=
  let ds := cs.takeWhile Char.isDigit
  if ds.isEmpty then none
  else some (ds.foldl (fun acc c => acc * 10 + (c.toNat - 48)) 0)

/-- Model of `parseInt(s, 10)`: skip leading spaces, optional sign, then
leading decimal digits; `none` models NaN. -/
def parseInt10 (s : String) : Option Int :=
  let cs := s.data.dropWhile (fun c => c = ' ')
  match cs with
  | '-' :: rest => (parseDigits10 rest).map (fun n => -(n : Int))
  | '+' :: rest => (parseDigits10 rest).map (fun n => (n : Int))
  | _ => (parseDigits10 cs).map (fun n => (n : Int))

/-- JS `v || d` on numbers: NaN (`none`) and 0 are falsy. -/
def orElseNum (v : Option Int) (d : Int) : Int :=
  match v with
  | none => d
  | some n => if n = 0 then d else n

/-- Accumulator pass for `jsSplitDash`. -/
def splitDashAux : List Char → List Char → List String
  | [], acc => [String.mk acc.reverse]
  | c :: cs, acc =>
    if c = '-' then String.mk acc.reverse :: splitDashAux cs []
    else splitDashAux cs (c :: acc)

/-- Model of `String.prototype.split` with separator `-`: the maximal runs
between dashes, keeping empty pieces (the empty string splits to one empty
piece). -/
def jsSplitDash (s : String) : List String := splitDashAux s.data []

/-- The Date/locale platform facts `formatDate` consults: `new Date(y, mi,
d).getFullYear()` (JS date normalization), the current year, and
`toLocaleDateString` for a valid date built from `(y, mi, d)` with the
boolean saying whether the same-year (year-less) option set was chosen. -/
structure DateEnv where
  yearOf : Int → Int → Int → Int
  nowYear : Int
  fmt : Int → Int → Int → Bool → String

/-- `formatDate(dateStr)` from dinnercaster.jsx.  `none` models a nullish
argument.  A NaN year makes `new Date` an Invalid Date, whose
`toLocaleDateString` is the string Invalid Date per ECMA-402. -/
def formatDate (env : DateEnv) (dateStr : Option String) : String :=
  match dateStr with
  | none => ""
  | some s =>
    if s = "" then ""
    else
      let parts := jsSplitDash s
      if parts.length ≠ 3 then ""
      else
        let y := parseInt10 (parts.getD 0 "")
        let m := parseInt10 (parts.getD 1 "")
        let day := parseInt10 (parts.getD 2 "")
        match y with
        | none => "Invalid Date"
        | some yv =>
          let mi := orElseNum m 1 - 1
          let d := orElseNum day 1
          env.fmt yv mi d (env.yearOf yv mi d = env.nowYear)

/- -------------------------- buildInitialData --------------------------- -/

/-- `addMealDefaults` from `buildInitialData`, threaded with the index of the
next `uid()` result: `ids n` is the value the n-th `uid()` call of this
`buildInitialData` invocation returns (`uid()` is only called when `m.id` is
nullish, so the counter advances only then). -/
def addMealDefaults (ids : Nat → String) (n : Nat) (m : RawMeal) : Meal × Nat :=
  match m.id with
  | some i =>
    ({ id := i, date := m.date, meal := m.meal.getD "", notes := m.notes.getD "" }, n)
  | none =>
    ({ id := ids n, date := m.date, meal := m.meal.getD "", notes := m.notes.getD "" }, n + 1)

/-- `(toolOutput?.meals || []).map(addMealDefaults)`, left to right. -/
def buildMeals (ids : Nat → String) : Nat → List RawMeal → List Meal
  | _, [] => []
  | n, m :: ms =>
    let p := addMealDefaults ids n m
    p.1 :: buildMeals ids p.2 ms

/-- `buildInitialData(toolOutput)` from dinnercaster.jsx.  A nullish
`toolOutput` or nullish/falsy `meals` field yields the empty collection. -/
def buildInitialData (ids : Nat → String) (toolOutput : Option ToolOutput) : ViewModel :=
  { meals := buildMeals ids 0 ((toolOutput.bind ToolOutput.meals).getD []) }

/-- The `useWidgetState` initializer from dinnercaster.jsx:
widgetState (cached) wins when its `meals` field is set, else toolOutput
(fresh) when its `meals` field is set, else the empty collection. -/
def initData (ids : Nat → String) (ws : Option WidgetState) (t : Option ToolOutput) : ViewModel :=
  match ws.bind WidgetState.meals with
  | some l => { meals := l }
  | none =>
    match t.bind ToolOutput.meals with
    | some _ => buildInitialData ids t
    | none => { meals := [] }

/-- The toolOutput sync effect of the main variant (dinnercaster.jsx lines
169-173): whenever `toolOutput?.meals` is truthy, replace the whole view
model with `buildInitialData(toolOutput)`; otherwise leave state alone. -/
def syncToolOutput (ids : Nat → String) (prev : ViewModel) (t : Option ToolOutput) : ViewModel :=
  match t.bind ToolOutput.meals with
  | some _ => buildInitialData ids t
  | none => prev

/- ------------- part_003 variant: last-synced-ref reconciler ------------- -/

/-- State of the read-only variant's reconciler (src/unnamed/part_003):
the view model's meal list plus `lastSyncedToolOutputRef.current`. -/
structure SyncStateP3 where
  meals : List RawMeal
  lastSynced : Option (List RawMeal)
deriving DecidableEq, Repr

/-- The part_003 sync effect: update only when `toolOutput?.meals` is truthy
and its JSON serialization differs from the last-synced payload.  On the
record lists involved, `JSON.stringify` equality coincides with structural
equality, so the comparison is modelled as decidable equality; the initial
null ref compares unequal to every array, matching `some ms = none` being
false. -/
def syncToolOutputP3 (s : SyncStateP3) (t : Option ToolOutput) : SyncStateP3 :=
  match t.bind ToolOutput.meals with
  | none => s
  | some ms =>
    if some ms = s.lastSynced then s
    else { meals := ms, lastSynced := some ms }

/- ----------------------------- mutations ------------------------------- -/

/-- `getFullYear()/getMonth()/getDate()` of `new Date()` at the moment
`addMeal` runs; `month0` is the 0-based month. -/
structure JsDate where
  year : Nat
  month0 : Nat
  day : Nat
deriving DecidableEq, Repr

/-- `String(x).padStart(2, '0')`. -/
def padStart2 (s : String) : String :=
  if s.length < 2 then String.mk (List.replicate (2 - s.length) '0') ++ s else s

/-- The template string assembling today's `YYYY-MM-DD` date in `addMeal`. -/
def jsDateStr (d : JsDate) : String :=
  toString d.year ++ "-" ++ padStart2 (toString (d.month0 + 1)) ++ "-" ++ padStart2 (toString d.day)

/-- `addMeal` from dinnercaster.jsx: prepend a blank record carrying a fresh
`uid()` and today's date string. -/
def addMeal (env : UidEnv) (today : JsDate) (prev : ViewModel) : ViewModel :=
  { meals := { id := uid env, meal := "", notes := "", date := some (jsDateStr today) } :: prev.meals }

/-- `deleteMealById` from dinnercaster.jsx: keep the records whose id differs. -/
def deleteMealById (prev : ViewModel) (id : String) : ViewModel :=
  { meals := prev.meals.filter (fun m => m.id ≠ id) }

/-- The `val` object passed to `updateMealById` by the two callers: at most
the `meal` and `notes` keys, each present (`some`) or absent (`none`). -/
structure MealPatch where
  meal : Option String
  notes : Option String
deriving DecidableEq, Repr

/-- The object spread `{ ...m, ...val }`: keys present in `val` override. -/
def mergePatch (m : Meal) (val : MealPatch) : Meal :=
  { m with meal := val.meal.getD m.meal, notes := val.notes.getD m.notes }

/-- `updateMealById` from dinnercaster.jsx. -/
def updateMealById (prev : ViewModel) (id : String) (val : MealPatch) : ViewModel :=
  { meals := prev.meals.map (fun m => if m.id = id then mergePatch m val else m) }

/- -------------------- operation sequences (for C4) ---------------------- -/

/-- One user- or host-initiated step touching the cached view model. -/
inductive Op where
  | add (env : UidEnv) (today : JsDate)
  | update (id : String) (val : MealPatch)
  | delete (id : String)
  | sync (t : Option ToolOutput)
deriving DecidableEq, Repr

/-- Apply one step to the cached view model. -/
def applyOp (ids : Nat → String) (vm : ViewModel) : Op → ViewModel
  | .add env today => addMeal env today vm
  | .update i val => updateMealById vm i val
  | .delete i => deleteMealById vm i
  | .sync t => syncToolOutput ids vm t

/-- Run a sequence of steps from an initial view model. -/
def run (ids : Nat → String) (vm : ViewModel) : List Op → ViewModel
  | [] => vm
  | op :: ops => run ids (applyOp ids vm op) ops

/-- The ids present in the active collection. -/
def mealIds (vm : ViewModel) : List String := vm.meals.map Meal.id

/-- Id-uniqueness invariant of the active collection. -/
def idsNodup (vm : ViewModel) : Prop := (mealIds vm).Nodup

/-- The ids a raw payload carries explicitly. -/
def rawIds (ms : List RawMeal) : List String := ms.filterMap RawMeal.id

/-- Freshness side conditions of one step: a generated id must not collide
with an id already present, and an applied payload must carry distinct ids
that the generator also avoids.  The random generator makes these hold with
overwhelming probability but the code cannot guarantee them. -/
def freshOk (ids : Nat → String) (vm : ViewModel) : Op → Prop
  | .add env _ => uid env ∉ mealIds vm
  | .update _ _ => True
  | .delete _ => True
  | .sync t =>
    match t.bind ToolOutput.meals with
    | none => True
    | some ms => (rawIds ms).Nodup ∧ Function.Injective ids ∧ ∀ n, ids n ∉ rawIds ms

/- ---------------- JS dynamic semantics of buildInitialData -------------- -/

/-- A JavaScript value, for the dynamic-semantics reading of
`buildInitialData` on arbitrary (possibly malformed) payloads. -/
inductive JValue where
  | null
  | undefined
  | bool (b : Bool)
  | num (n : Int)
  | str (s : String)
  | arr (elems : List JValue)
  | obj (fields : List (String × JValue))
deriving Repr, BEq

/-- JS truthiness. -/
def truthy : JValue → Bool
  | .null => false
  | .undefined => false
  | .bool b => b
  | .num n => n != 0
  | .str s => s != ""
  | .arr _ => true
  | .obj _ => true

/-- Is the value null or undefined (the domain of the nullish operators). -/
def nullish : JValue → Bool
  | .null => true
  | .undefined => true
  | _ => false

/-- Look a key up in an object's own fields; absent keys read as undefined. -/
def lookupField (fs : List (String × JValue)) (k : String) : JValue :=
  match fs.find? (fun p => p.1 = k) with
  | some p => p.2
  | none => .undefined

/-- Optional chaining `v?.k`: undefined on nullish `v`, ordinary property
access otherwise (property reads on primitives yield undefined). -/
def optChain (v : JValue) (k : String) : JValue :=
  match v with
  | .null => .undefined
  | .undefined => .undefined
  | .obj fs => lookupField fs k
  | _ => .undefined

/-- The runtime errors the reconciler's build step can raise. -/
inductive JsError
  | typeError
deriving DecidableEq, Repr

/-- Plain property access `v.k`: throws TypeError on nullish `v`. -/
def getProp (v : JValue) (k : String) : Except JsError JValue :=
  match v with
  | .null => .error .typeError
  | .undefined => .error .typeError
  | .obj fs => .ok (lookupField fs k)
  | _ => .ok .undefined

/-- `addMealDefaults` under JS dynamic semantics, threading the `uid()`
counter: `m.id` on a nullish element throws; `??` falls back exactly on
nullish field values; a non-string `date` becomes null. -/
def addMealDefaultsJS (ids : Nat → String) (n : Nat) (m : JValue) :
    Except JsError (JValue × Nat) := do
  let idv ← getProp m "id"
  let datev ← getProp m "date"
  let mealv ← getProp m "meal"
  let notesv ← getProp m "notes"
  let idPick : JValue × Nat := if nullish idv then (.str (ids n), n + 1) else (idv, n)
  .ok (.obj [("id", idPick.1),
             ("date", match datev with | .str s => .str s | _ => .null),
             ("meal", if nullish mealv then .str "" else mealv),
             ("notes", if nullish notesv then .str "" else notesv)], idPick.2)

/-- `.map(addMealDefaults)` over the array elements, left to right. -/
def buildMealsJS (ids : Nat → String) : Nat → List JValue → Except JsError (List JValue)
  | _, [] => .ok []
  | n, x :: xs => do
    let p ← addMealDefaultsJS ids n x
    let rest ← buildMealsJS ids p.2 xs
    .ok (p.1 :: rest)

/-- `buildInitialData(toolOutput)` under JS dynamic semantics:
`toolOutput?.meals || []` then `.map(addMealDefaults)`.  When the `meals`
field is truthy but not an array, `.map` is not a function and the call
throws a TypeError. -/
def buildInitialDataJS (ids : Nat → String) (toolOutput : JValue) : Except JsError JValue :=
  let mealsv := optChain toolOutput "meals"
  let base := if truthy mealsv then mealsv else .arr []
  match base with
  | .arr xs => (buildMealsJS ids 0 xs).map (fun ms => .obj [("meals", .arr ms)])
  | _ => .error .typeError

/-- A concrete, collision-free id supply used by witnesses and
counterexamples; stands in for a stream of `uid()` results. -/
def ids0 : Nat → String := fun n => String.mk (List.replicate (n + 1) 'u')

/-- A concrete raw payload record with an explicit id. -/
def rawA : RawMeal := { id := some "a", date := none, meal := none, notes := none }

/-- A concrete defaulted record. -/
def mealA : Meal := { id := "a", date := none, meal := "", notes := "" }

/-- A concrete uid environment with a secure random source. -/
def envCrypto : UidEnv :=
  { hasCrypto := true, randomUUID := "123e4567-e89b-42d3-a456-426614174000",
    nowMs := 0, randSuffix := "" }

/-- A concrete date/locale environment. -/
def dateEnv0 : DateEnv :=
  { yearOf := fun _ _ _ => 2025, nowYear := 2025, fmt := fun _ _ _ _ => "Dec 1, Mon" }

/- ----------------------------- lemmas ---------------------------------- -/

theorem toDigits36_ne_nil (n : Nat) : toDigits36 n ≠ [] := by
  unfold toDigits36
  split <;> simp

theorem uid_of_hasCrypto (env : UidEnv) (h : env.hasCrypto = true) :
    uid env = env.randomUUID := by
  simp [uid, h]

theorem uid_of_fallback (env : UidEnv) (h : env.hasCrypto = false) :
    uid env = jsToUpper (toString36 env.nowMs ++ env.randSuffix) := by
  simp [uid, h]

theorem uid_fallback_ne_empty (env : UidEnv) (h : env.hasCrypto = false) :
    uid env ≠ "" := by
  rw [uid_of_fallback env h]
  intro hcontra
  have hdata := congrArg String.data hcontra
  simp [jsToUpper, toString36] at hdata
  exact toDigits36_ne_nil env.nowMs hdata.1

theorem buildMeals_cons (ids : Nat → String) (n : Nat) (m : RawMeal) (ms : List RawMeal) :
    buildMeals ids n (m :: ms) =
      (addMealDefaults ids n m).1 :: buildMeals ids (addMealDefaults ids n m).2 ms := rfl

/-- Pointwise id-assignment policy of `buildMeals`: explicit ids pass
through, missing ids are filled from the supply. -/
theorem buildMeals_id_policy (ids : Nat → String) :
    ∀ (ms : List RawMeal) (n : Nat),
      List.Forall₂
        (fun (m : RawMeal) (b : Meal) =>
          (∀ i, m.id = some i → b.id = i) ∧ (m.id = none → ∃ k, b.id = ids k))
        ms (buildMeals ids n ms) := by
  intro ms
  induction ms with
  | nil => intro n; exact List.Forall₂.nil
  | cons m ms ih =>
    intro n
    rw [buildMeals_cons]
    refine List.Forall₂.cons ?_ (ih _)
    cases hm : m.id with
    | some i => simp [addMealDefaults, hm]
    | none => exact ⟨by simp [hm], fun _ => ⟨n, by simp [addMealDefaults, hm]⟩⟩

/-- Every id in a built list is either an explicit payload id or a supply
value at an index at least the starting counter. -/
theorem mem_buildMeals_id (ids : Nat → String) :
    ∀ (ms : List RawMeal) (n : Nat) (x : String),
      x ∈ (buildMeals ids n ms).map Meal.id →
      x ∈ rawIds ms ∨ ∃ k, n ≤ k ∧ x = ids k := by
  intro ms
  induction ms with
  | nil => intro n x hx; simp [buildMeals] at hx
  | cons m ms ih =>
    intro n x hx
    rw [buildMeals_cons, List.map_cons] at hx
    cases hm : m.id with
    | some i =>
      have hhead : (addMealDefaults ids n m).1.id = i := by simp [addMealDefaults, hm]
      have hc : (addMealDefaults ids n m).2 = n := by simp [addMealDefaults, hm]
      rcases List.mem_cons.mp hx with hx | hx
      · exact Or.inl (by simp [rawIds, hm, hx, hhead])
      · rw [hc] at hx
        rcases ih n x hx with h | ⟨k, hk, hxk⟩
        · refine Or.inl ?_
          simp only [rawIds, List.filterMap_cons, hm]
          exact List.mem_cons_of_mem _ h
        · exact Or.inr ⟨k, hk, hxk⟩
    | none =>
      have hhead : (addMealDefaults ids n m).1.id = ids n := by simp [addMealDefaults, hm]
      have hc : (addMealDefaults ids n m).2 = n + 1 := by simp [addMealDefaults, hm]
      rcases List.mem_cons.mp hx with hx | hx
      · exact Or.inr ⟨n, le_refl n, by rw [hx, hhead]⟩
      · rw [hc] at hx
        rcases ih (n + 1) x hx with h | ⟨k, hk, hxk⟩
        · exact Or.inl (by simpa [rawIds, hm] using h)
        · exact Or.inr ⟨k, by omega, hxk⟩

/-- Under the freshness side conditions, `buildMeals` produces distinct ids. -/
theorem buildMeals_id_nodup (ids : Nat → String) (hinj : Function.Injective ids) :
    ∀ (ms : List RawMeal), (rawIds ms).Nodup → (∀ k, ids k ∉ rawIds ms) →
      ∀ n, ((buildMeals ids n ms).map Meal.id).Nodup := by
  intro ms
  induction ms with
  | nil => intro _ _ n; simp [buildMeals]
  | cons m ms ih =>
    intro hnd hdisj n
    rw [buildMeals_cons]
    cases hm : m.id with
    | some i =>
      have hraw : rawIds (m :: ms) = i :: rawIds ms := by simp [rawIds, hm]
      rw [hraw] at hnd hdisj
      have htail : ((buildMeals ids (addMealDefaults ids n m).2 ms).map Meal.id).Nodup :=
        ih hnd.of_cons (fun k hk => hdisj k (List.mem_cons_of_mem _ hk)) _
      rw [List.map_cons]
      refine List.Nodup.cons ?_ htail
      intro hmem
      have hhead : (addMealDefaults ids n m).1.id = i := by simp [addMealDefaults, hm]
      rw [hhead] at hmem
      rcases mem_buildMeals_id ids ms _ i hmem with h | ⟨k, _, hik⟩
      · exact (List.nodup_cons.mp hnd).1 h
      · exact hdisj k (by simp [hik])
    | none =>
      have hraw : rawIds (m :: ms) = rawIds ms := by simp [rawIds, hm]
      rw [hraw] at hnd hdisj
      have hcount : (addMealDefaults ids n m).2 = n + 1 := by simp [addMealDefaults, hm]
      have htail : ((buildMeals ids (addMealDefaults ids n m).2 ms).map Meal.id).Nodup :=
        ih hnd hdisj _
      rw [List.map_cons]
      refine List.Nodup.cons ?_ htail
      intro hmem
      have hhead : (addMealDefaults ids n m).1.id = ids n := by simp [addMealDefaults, hm]
      rw [hhead, hcount] at hmem
      rcases mem_buildMeals_id ids ms _ (ids n) hmem with h | ⟨k, hk, hik⟩
      · exact hdisj n h
      · have := hinj hik
        omega

/-- One step preserves id uniqueness when its freshness side condition holds. -/
theorem applyOp_preserves_idsNodup (ids : Nat → String) (vm : ViewModel) (op : Op)
    (hvm : idsNodup vm) (hop : freshOk ids vm op) : idsNodup (applyOp ids vm op) := by
  cases op with
  | add env today =>
    simp only [applyOp, idsNodup, mealIds, addMeal, List.map_cons] at *
    exact List.Nodup.cons hop hvm
  | update i val =>
    have hids : mealIds (updateMealById vm i val) = mealIds vm := by
      simp only [mealIds, updateMealById, List.map_map]
      refine List.map_congr_left ?_
      intro m _
      by_cases h : m.id = i <;> simp [h, mergePatch]
    simpa [applyOp, idsNodup, hids] using hvm
  | delete i =>
    have hsub : List.Sublist (mealIds (deleteMealById vm i)) (mealIds vm) :=
      List.Sublist.map Meal.id (List.filter_sublist vm.meals)
    simpa [applyOp, idsNodup] using List.Nodup.sublist hsub hvm
  | sync t =>
    simp only [applyOp, syncToolOutput]
    cases ht : t.bind ToolOutput.meals with
    | none => simpa using hvm
    | some ms =>
      simp only [freshOk, ht] at hop
      obtain ⟨hnd, hinj, hdisj⟩ := hop
      simp only [idsNodup, mealIds, buildInitialData, ht, Option.getD_some]
      exact buildMeals_id_nodup ids hinj ms hnd hdisj 0

/- --------------------------- claim theorems ---------------------------- -/

/-- C1: delivering a server payload the reconciler has already applied a
second time leaves the view model (including any in-progress local edits in
its meal list) unchanged: the part_003 reconciler records the last-applied
payload and skips the overwrite when the incoming payload equals it. -/
theorem sync_skips_identical_payload (s : SyncStateP3) (t : Option ToolOutput)
    (ms : List RawMeal) (h : t.bind ToolOutput.meals = some ms) :
    (syncToolOutputP3 s t).lastSynced = some ms
    ∧ ∀ s2 : SyncStateP3, s2.lastSynced = some ms → syncToolOutputP3 s2 t = s2 := by
  constructor
  · simp only [syncToolOutputP3, h]
    by_cases hlast : some ms = s.lastSynced
    · simp [hlast]
    · simp [hlast]
  · intro s2 h2
    simp [syncToolOutputP3, h, h2]

/-- Witness for C1 at a concrete state and payload. -/
theorem sync_skips_identical_payload_witness :
    ((some { meals := some [rawA] } : Option ToolOutput).bind ToolOutput.meals = some [rawA])
    ∧ ((syncToolOutputP3 { meals := [], lastSynced := none }
          (some { meals := some [rawA] })).lastSynced = some [rawA]
        ∧ ∀ s2 : SyncStateP3, s2.lastSynced = some [rawA] →
            syncToolOutputP3 s2 (some { meals := some [rawA] }) = s2) :=
  ⟨rfl, sync_skips_identical_payload { meals := [], lastSynced := none }
      (some { meals := some [rawA] }) [rawA] rfl⟩

/-- C2: a newly arriving payload whose meals field is set and which differs
from the last-applied payload replaces the whole cached view model with the
view model built from it; in the main variant the replacement happens for
every payload carrying meals, in the ref-tracking variant whenever the
payload differs from the last-synced one. -/
theorem sync_fresh_data_wins (ids : Nat → String) (prev : ViewModel)
    (t : Option ToolOutput) (ms : List RawMeal) (h : t.bind ToolOutput.meals = some ms) :
    syncToolOutput ids prev t = buildInitialData ids t
    ∧ ∀ s : SyncStateP3, some ms ≠ s.lastSynced →
        syncToolOutputP3 s t = { meals := ms, lastSynced := some ms } := by
  constructor
  · simp [syncToolOutput, h]
  · intro s hne
    simp [syncToolOutputP3, h, hne]

/-- Witness for C2 at a concrete state and payload. -/
theorem sync_fresh_data_wins_witness :
    ((some { meals := some [rawA] } : Option ToolOutput).bind ToolOutput.meals = some [rawA])
    ∧ (syncToolOutput ids0 { meals := [mealA] } (some { meals := some [rawA] })
          = buildInitialData ids0 (some { meals := some [rawA] })
        ∧ ∀ s : SyncStateP3, some [rawA] ≠ s.lastSynced →
            syncToolOutputP3 s (some { meals := some [rawA] })
              = { meals := [rawA], lastSynced := some [rawA] }) :=
  ⟨rfl, sync_fresh_data_wins ids0 { meals := [mealA] }
      (some { meals := some [rawA] }) [rawA] rfl⟩

/-- C3: on initial load the view model is the cached widget state when its
meals field is set, else the view model built from the tool output when its
meals field is set, else the empty collection. -/
theorem initData_precedence (ids : Nat → String) (ws : Option WidgetState)
    (t : Option ToolOutput) :
    (∀ l, ws.bind WidgetState.meals = some l → initData ids ws t = { meals := l })
    ∧ (ws.bind WidgetState.meals = none →
        ∀ ms, t.bind ToolOutput.meals = some ms → initData ids ws t = buildInitialData ids t)
    ∧ (ws.bind WidgetState.meals = none → t.bind ToolOutput.meals = none →
        initData ids ws t = { meals := [] }) := by
  refine ⟨?_, ?_, ?_⟩
  · intro l hl; simp [initData, hl]
  · intro hw ms hm; simp [initData, hw, hm]
  · intro hw hm; simp [initData, hw, hm]

/-- Witness for C3 at concrete inputs, hitting all three branches. -/
theorem initData_precedence_witness :
    initData ids0 (some { meals := some [mealA] }) none = { meals := [mealA] }
    ∧ initData ids0 (some { meals := none }) (some { meals := some [rawA] })
        = buildInitialData ids0 (some { meals := some [rawA] })
    ∧ initData ids0 none none = { meals := [] } :=
  ⟨(initData_precedence ids0 (some { meals := some [mealA] }) none).1 [mealA] rfl,
   (initData_precedence ids0 (some { meals := none })
       (some { meals := some [rawA] })).2.1 rfl [rawA] rfl,
   (initData_precedence ids0 none none).2.2 rfl rfl⟩

/-- C7: updateMealById keeps the list length and order, leaves every record
whose id differs untouched, preserves the edited record's id, and is the
identity when no record carries the given id. -/
theorem updateMealById_frame (prev : ViewModel) (i : String) (val : MealPatch) :
    List.Forall₂ (fun m mNew : Meal => mNew.id = m.id ∧ (m.id ≠ i → mNew = m))
      prev.meals (updateMealById prev i val).meals
    ∧ (updateMealById prev i val).meals.length = prev.meals.length
    ∧ ((∀ m ∈ prev.meals, m.id ≠ i) → updateMealById prev i val = prev) := by
  refine ⟨?_, ?_, ?_⟩
  · simp only [updateMealById]
    rw [List.forall₂_map_right_iff]
    rw [List.forall₂_same]
    intro m _
    by_cases h : m.id = i <;> simp [h, mergePatch]
  · simp [updateMealById]
  · intro hnone
    have hmap : prev.meals.map (fun m => if m.id = i then mergePatch m val else m)
        = prev.meals := by
      rw [show prev.meals = prev.meals.map id by simp]
      rw [List.map_map]
      refine List.map_congr_left ?_
      intro m hm
      simp [hnone m (by simpa using hm)]
    simp only [updateMealById]
    rw [hmap]

/-- Witness for C7: editing an absent id leaves a concrete model unchanged. -/
theorem updateMealById_frame_witness :
    updateMealById { meals := [mealA] } "z" { meal := some "x", notes := none }
      = { meals := [mealA] } :=
  (updateMealById_frame { meals := [mealA] } "z" { meal := some "x", notes := none }).2.2
    (by intro m hm; simp at hm; simp [hm, mealA])

/-- C8: the add-blank-record operation prepends exactly one new record with
empty meal name, empty notes, the freshly generated id and today's date,
keeping all pre-existing records unchanged and in order. -/
theorem addMeal_prepends_blank_record (env : UidEnv) (today : JsDate) (prev : ViewModel) :
    ∃ r : Meal, (addMeal env today prev).meals = r :: prev.meals
      ∧ r.id = uid env ∧ r.meal = "" ∧ r.notes = ""
      ∧ r.date = some (jsDateStr today) :=
  ⟨_, rfl, rfl, rfl, rfl, rfl⟩

/-- C9: deleteMealById removes exactly the records carrying the given id,
preserves the relative order of the rest, and is the identity when the id is
absent. -/
theorem deleteMealById_removes_exactly (prev : ViewModel) (i : String) :
    List.Sublist (deleteMealById prev i).meals prev.meals
    ∧ (∀ m ∈ (deleteMealById prev i).meals, m.id ≠ i)
    ∧ (∀ m ∈ prev.meals, m.id ≠ i → m ∈ (deleteMealById prev i).meals)
    ∧ ((∀ m ∈ prev.meals, m.id ≠ i) → deleteMealById prev i = prev) := by
  refine ⟨List.filter_sublist prev.meals, ?_, ?_, ?_⟩
  · intro m hm
    have := List.of_mem_filter hm
    simpa using this
  · intro m hm hne
    exact List.mem_filter.mpr ⟨hm, by simpa using hne⟩
  · intro hnone
    have : prev.meals.filter (fun m => m.id ≠ i) = prev.meals :=
      List.filter_eq_self.mpr (fun m hm => by simpa using hnone m hm)
    simp only [deleteMealById]
    rw [this]

/-- Witness for C9: deleting an absent id leaves a concrete model unchanged. -/
theorem deleteMealById_removes_exactly_witness :
    deleteMealById { meals := [mealA] } "z" = { meals := [mealA] } :=
  (deleteMealById_removes_exactly { meals := [mealA] } "z").2.2.2
    (by intro m hm; simp at hm; simp [hm, mealA])

/-- C4 counterexample: initial load of a server payload carrying the same
explicit id twice produces a view model whose active collection repeats that
id, so uniqueness does not hold for arbitrary payloads. -/
theorem initData_duplicate_ids_counterexample :
    ¬ idsNodup (initData ids0 none (some { meals := some [rawA, rawA] })) := by
  have h : mealIds (initData ids0 none (some { meals := some [rawA, rawA] }))
      = ["a", "a"] := rfl
  unfold idsNodup
  rw [h]
  decide

/-- C4 amended: assuming each freshly generated id differs from every id
already in the collection, and each applied payload carries pairwise-distinct
explicit ids that the injective generator supply avoids, every sequence of
add/edit/delete/sync steps from a duplicate-free view model keeps all ids in
the active collection unique. -/
theorem run_preserves_id_uniqueness (ids : Nat → String) (vm0 : ViewModel)
    (ops : List Op) (h0 : idsNodup vm0)
    (hfresh : ∀ k (hk : k < ops.length),
      freshOk ids (run ids vm0 (ops.take k)) (ops.get ⟨k, hk⟩)) :
    idsNodup (run ids vm0 ops) := by
  induction ops generalizing vm0 with
  | nil => exact h0
  | cons op ops ih =>
    have h1 : idsNodup (applyOp ids vm0 op) :=
      applyOp_preserves_idsNodup ids vm0 op h0
        (by simpa [run] using hfresh 0 (by simp))
    refine ih (applyOp ids vm0 op) h1 ?_
    intro k hk
    have hstep := hfresh (k + 1) (by simpa using Nat.succ_lt_succ hk)
    simpa [run, List.take_succ_cons] using hstep

/-- Witness for C4 at a concrete id-unique model and a concrete step list. -/
theorem run_preserves_id_uniqueness_witness :
    idsNodup (run ids0 { meals := [] }
      [Op.add envCrypto { year := 2025, month0 := 11, day := 1 }, Op.delete "z"]) :=
  run_preserves_id_uniqueness ids0 { meals := [] }
    [Op.add envCrypto { year := 2025, month0 := 11, day := 1 }, Op.delete "z"]
    (by simp [idsNodup, mealIds])
    (by
      intro k hk
      simp only [List.length_cons, List.length_nil] at hk
      match k, hk with
      | 0, _ => simp [freshOk, run, mealIds]
      | 1, _ => simp [freshOk, run])

/-- C5 counterexample: a payload whose meals field is the truthy malformed
value 1 makes buildInitialData call .map on a non-array, raising a
TypeError rather than defaulting to the empty collection. -/
theorem buildInitialDataJS_throws_on_nonarray_meals :
    buildInitialDataJS ids0 (.obj [("meals", .num 1)]) = .error .typeError := rfl

theorem addMealDefaultsJS_ok (ids : Nat → String) (n : Nat) (m : JValue)
    (h : nullish m = false) :
    ∃ b k, addMealDefaultsJS ids n m = .ok (b, k) := by
  cases m with
  | null => simp [nullish] at h
  | undefined => simp [nullish] at h
  | bool b => exact ⟨_, _, rfl⟩
  | num v => exact ⟨_, _, rfl⟩
  | str s => exact ⟨_, _, rfl⟩
  | arr xs => exact ⟨_, _, rfl⟩
  | obj fs => exact ⟨_, _, rfl⟩

theorem buildMealsJS_ok (ids : Nat → String) :
    ∀ (xs : List JValue) (n : Nat), (∀ x ∈ xs, nullish x = false) →
      ∃ ms, buildMealsJS ids n xs = .ok ms := by
  intro xs
  induction xs with
  | nil => intro n _; exact ⟨[], rfl⟩
  | cons x xs ih =>
    intro n hx
    obtain ⟨b, k, hb⟩ := addMealDefaultsJS_ok ids n x (hx x (by simp))
    obtain ⟨ms, hms⟩ := ih k (fun y hy => hx y (by simp [hy]))
    exact ⟨b :: ms, by simp only [buildMealsJS, hb, Bind.bind, Except.bind, hms]⟩

/-- C5 amended: building the view model never raises when the payload's
meals field is nullish or otherwise falsy (it then defaults to the empty
collection) or is an array of non-nullish elements; only a truthy non-array
meals value, or a nullish array element, escapes this guarantee. -/
theorem buildInitialDataJS_total_on_wellformed (ids : Nat → String) (t : JValue) :
    (truthy (optChain t "meals") = false →
      buildInitialDataJS ids t = .ok (.obj [("meals", .arr [])]))
    ∧ (∀ xs, optChain t "meals" = .arr xs → (∀ x ∈ xs, nullish x = false) →
      ∃ ms, buildInitialDataJS ids t = .ok (.obj [("meals", .arr ms)])) := by
  constructor
  · intro h
    simp [buildInitialDataJS, h, buildMealsJS, Except.map]
  · intro xs hx hall
    obtain ⟨ms, hms⟩ := buildMealsJS_ok ids xs 0 hall
    refine ⟨ms, ?_⟩
    simp [buildInitialDataJS, hx, truthy, hms, Except.map]

/-- Witness for C5 at concrete well-formed payloads: a missing meals field
defaults to empty, and an array payload builds successfully. -/
theorem buildInitialDataJS_total_on_wellformed_witness :
    buildInitialDataJS ids0 JValue.null = .ok (.obj [("meals", .arr [])])
    ∧ ∃ ms, buildInitialDataJS ids0 (.obj [("meals", .arr [.obj [("id", .str "a")]])])
        = .ok (.obj [("meals", .arr ms)]) :=
  ⟨(buildInitialDataJS_total_on_wellformed ids0 .null).1 rfl,
   (buildInitialDataJS_total_on_wellformed ids0
       (.obj [("meals", .arr [.obj [("id", .str "a")]])])).2
     [.obj [("id", .str "a")]] rfl (by intro x hx; simp at hx; simp [hx, nullish])⟩

/-- C6: buildInitialData keeps explicit payload ids and fills missing ones
from the generator; the generator returns crypto.randomUUID's 128-bit random
UUID when the secure source is available and otherwise the uppercased
timestamp-plus-random-suffix fallback, and (given that randomUUID yields a
nonempty UUID string) it never returns an empty identifier. -/
theorem uid_and_id_assignment (envs : Nat → UidEnv)
    (huuid : ∀ n, (envs n).hasCrypto = true → (envs n).randomUUID ≠ "") :
    (∀ (ms : List RawMeal) (n : Nat),
        List.Forall₂
          (fun (m : RawMeal) (b : Meal) =>
            (∀ i, m.id = some i → b.id = i)
            ∧ (m.id = none → ∃ k, b.id = uid (envs k)))
          ms (buildMeals (fun k => uid (envs k)) n ms))
    ∧ (∀ env : UidEnv, env.hasCrypto = true → uid env = env.randomUUID)
    ∧ (∀ env : UidEnv, env.hasCrypto = false →
        uid env = jsToUpper (toString36 env.nowMs ++ env.randSuffix))
    ∧ (∀ n, uid (envs n) ≠ "") := by
  refine ⟨buildMeals_id_policy _, uid_of_hasCrypto, uid_of_fallback, ?_⟩
  intro n
  cases hc : (envs n).hasCrypto with
  | false => exact uid_fallback_ne_empty _ hc
  | true => rw [uid_of_hasCrypto _ hc]; exact huuid n hc

/-- Witness for C6 at a concrete crypto-backed environment stream. -/
theorem uid_and_id_assignment_witness :
    (∀ n : Nat, ((fun _ : Nat => envCrypto) n).hasCrypto = true →
        ((fun _ : Nat => envCrypto) n).randomUUID ≠ "")
    ∧ ∀ n : Nat, uid ((fun _ : Nat => envCrypto) n) ≠ "" :=
  ⟨fun _ _ => (by decide : ("123e4567-e89b-42d3-a456-426614174000" : String) ≠ ""),
   (uid_and_id_assignment (fun _ => envCrypto)
     (fun _ _ => (by decide : ("123e4567-e89b-42d3-a456-426614174000" : String) ≠ ""))).2.2.2⟩

/-- C10: formatDate is total and never throws: a nullish or empty date
string, or one that does not split into exactly three dash-separated parts,
yields the empty string; every other input yields a non-empty label (the
Invalid Date string for an unparsable year, otherwise a locale-formatted
date, which is never empty). -/
theorem formatDate_total (env : DateEnv)
    (hfmt : ∀ y mi d b, env.fmt y mi d b ≠ "") :
    formatDate env none = ""
    ∧ (∀ s : String, s = "" ∨ (jsSplitDash s).length ≠ 3 → formatDate env (some s) = "")
    ∧ (∀ s : String, s ≠ "" → (jsSplitDash s).length = 3 → formatDate env (some s) ≠ "") := by
  refine ⟨rfl, ?_, ?_⟩
  · intro s hs
    rcases hs with hs | hs
    · simp [formatDate, hs]
    · by_cases hs0 : s = ""
      · simp [formatDate, hs0]
      · simp [formatDate, hs0, hs]
  · intro s hs0 hs3
    simp only [formatDate, if_neg hs0, hs3]
    simp only [ne_eq, not_true_eq_false, if_false]
    cases hy : parseInt10 ((jsSplitDash s).getD 0 "") with
    | none => simp
    | some yv => simp [hfmt]

/-- Witness for C10 at a concrete locale environment and date string. -/
theorem formatDate_total_witness :
    (∀ y mi d b, dateEnv0.fmt y mi d b ≠ "")
    ∧ formatDate dateEnv0 (some "2025-12-01") ≠ "" :=
  ⟨fun _ _ _ _ => (by decide : ("Dec 1, Mon" : String) ≠ ""),
   (formatDate_total dateEnv0
       (fun _ _ _ _ => (by decide : ("Dec 1, Mon" : String) ≠ ""))).2.2 "2025-12-01"
     (by decide) (by decide)⟩

end Dinnercaster
